import Mathlib

/-
  Verification development for LLParse/rancher-catalog-service,
  src/manager/catalogManager.go.

  Shallow embedding conventions:
  - The filesystem is a pair of association lists: successful directory
    listings and successful file reads, keyed by the exact path string the
    Go code computes.  An absent key models an I/O error (missing file or
    unreadable file/directory); filepath.Abs is modelled as the identity.
  - yaml.Unmarshal of a file is modelled by two optional fields attached to
    the file data: the result of unmarshalling into a Go
    map of strings, and into a Go map of RancherCompose sections.  A list
    of pairs models the resulting Go map in one of its possible iteration
    orders; Go leaves the iteration order of a map unspecified, so any
    ordering of the unique keys is a legitimate behaviour of the program.
  - Log statements are observational no-ops and are not modelled.
  - A Go runtime panic is modelled by the value none of an Option result.
  - The global variable Catalog (a Go map from string to model.Template) is
    threaded explicitly as an association list updated with mapInsert.
-/

/-- One user-facing question, as described by the question schema of the
orchestration-compose section (model.Question is declared outside src/;
its fields are taken from the spec: variable name, description, label,
required flag, default value, declared type). -/
structure Question where
  varName : String
  qDescription : String
  qLabel : String
  required : Bool
  defaultValue : String
  qType : String
deriving DecidableEq, Repr

/-- One named section of a rancher-compose document; the source only ever
reads its Questions field. -/
structure RancherCompose where
  questions : List Question
deriving DecidableEq, Repr

/-- model.Template as used by catalogManager.go: Path, Name, Category,
Description, DefaultVersion, IconLink, DockerCompose, RancherCompose,
Questions, VersionLinks.  Go zero values are the empty string and the
empty list. -/
structure Template where
  path : String
  name : String
  category : String
  description : String
  defaultVersion : String
  iconLink : String
  dockerCompose : String
  rancherCompose : String
  questions : List Question
  versionLinks : List (String × String)
deriving DecidableEq, Repr

/-- The zero value of model.Template. -/
def emptyTemplate : Template :=
  { path := "", name := "", category := "", description := ""
  , defaultVersion := "", iconLink := "", dockerCompose := ""
  , rancherCompose := "", questions := [], versionLinks := [] }

/-- The published mapping: the global variable Catalog, a Go map from
template directory name to model.Template, modelled as an association
list. -/
abbrev Catalog := List (String × Template)

/-- Go map assignment m[k] = v: the new binding shadows (replaces) any
previous binding of k. -/
def mapInsert {α : Type} (m : List (String × α)) (k : String) (v : α) :
    List (String × α) :=
  (k, v) :: m.filter (fun kv => kv.1 != k)

/-- One entry of a directory listing, as returned by ioutil.ReadDir:
a name and an is-directory flag. -/
structure FSEntry where
  name : String
  isDir : Bool
deriving DecidableEq, Repr

/-- Contents of one readable file: the raw bytes, plus the abstract
results of yaml.Unmarshal into a Go map of strings and into a Go map of
RancherCompose sections (none models an unmarshal error; the list models
the resulting map in one of its unspecified iteration orders). -/
structure FileData where
  raw : String
  asStringMap : Option (List (String × String))
  asComposeMap : Option (List (String × RancherCompose))
deriving DecidableEq, Repr

/-- The filesystem visible to the program: successful directory listings
and successful file reads, keyed by path.  An absent key models an I/O
error. -/
structure FS where
  dirs : List (String × List FSEntry)
  files : List (String × FileData)

/-- ioutil.ReadDir: none models a read error. -/
def readDirFS (fs : FS) (p : String) : Option (List FSEntry) :=
  fs.dirs.lookup p

/-- ioutil.ReadFile: none models a read error (in the source, readFile
then returns a nil pointer). -/
def readFileFS (fs : FS) (p : String) : Option FileData :=
  fs.files.lookup p

/-- const catalogRoot = "./DATA/templates/" -/
def catalogRoot : String := "./DATA/templates/"

/-- The cleaned path filepath.Walk hands to walkCatalog for a top-level
template directory: filepath.Join of the root with the directory name. -/
def tplDirPath (dirName : String) : String :=
  "DATA/templates/" ++ dirName

/-- Go map lookup m[k] on a map of strings: the zero value "" when the key
is absent. -/
def goGet (m : List (String × String)) (k : String) : String :=
  (m.lookup k).getD ""

/-- strings.HasPrefix, computed structurally on the character lists (the
byte-for-byte prefix test). -/
def hasPfx (pre s : String) : Bool :=
  pre.data.isPrefixOf s.data

/-- readTemplateConfig: reads relativePath/config.yml, unmarshals it into
a map of strings and copies name, category, description and defaultVersion
into the template; a read or unmarshal error is logged and leaves the
template unchanged. -/
def readTemplateConfig (fs : FS) (relativePath : String) (t : Template) :
    Template :=
  match readFileFS fs (relativePath ++ "/config.yml") with
  | none => t
  | some fd =>
    match fd.asStringMap with
    | none => t
    | some config =>
      { t with name := goGet config "name"
             , category := goGet config "category"
             , description := goGet config "description"
             , defaultVersion := goGet config "defaultVersion" }

/-- Path of a file inside a version directory as computed by
ReadTemplateVersion: catalogRoot + path + "/" + fileName. -/
def versionFilePath (p fileName : String) : String :=
  catalogRoot ++ p ++ "/" ++ fileName

/-- One iteration of the subfile loop of ReadTemplateVersion, acting on
the accumulator (template, foundConfig, foundIcon).  The branches mirror
the if/else-if chain on the filename prefix.  none models the runtime
panic string(*(readFile ...)) performs when readFile returned nil after a
failed compose-file read. -/
def processEntry (fs : FS) (p : String) (acc : Template × Bool × Bool)
    (e : FSEntry) : Option (Template × Bool × Bool) :=
  let (t, foundConfig, foundIcon) := acc
  if hasPfx "config.yml" e.name then
    some (readTemplateConfig fs (catalogRoot ++ p) t, true, foundIcon)
  else if hasPfx "catalogIcon" e.name then
    some ({ t with iconLink := p ++ "/" ++ e.name }, foundConfig, true)
  else if hasPfx "docker-compose" e.name then
    match readFileFS fs (versionFilePath p e.name) with
    | none => none
    | some fd => some ({ t with dockerCompose := fd.raw }, foundConfig, foundIcon)
  else if hasPfx "rancher-compose" e.name then
    match readFileFS fs (versionFilePath p e.name) with
    | none => none
    | some fd =>
      let t1 := { t with rancherCompose := fd.raw }
      match fd.asComposeMap with
      | none => some (t1, foundConfig, foundIcon)
      | some rc =>
        some ({ t1 with questions := rc.foldl (fun _ kv => kv.2.questions) t1.questions }
             , foundConfig, foundIcon)
  else
    some (t, foundConfig, foundIcon)

/-- The subfile loop of ReadTemplateVersion over a whole directory
listing. -/
def processEntries (fs : FS) (p : String) :
    List FSEntry → Template × Bool × Bool → Option (Template × Bool × Bool)
  | [], acc => some acc
  | e :: es, acc =>
    match processEntry fs p acc e with
    | none => none
    | some acc2 => processEntries fs p es acc2

/-- tokens := strings.Split(path, "/"); parentPath := tokens[0].  The first
token of strings.Split is the run of characters before the first
separator, computed structurally here. -/
def parentOf (p : String) : String :=
  String.mk (p.data.takeWhile (fun c => c != '/'))

/-- Lines 191-216 of ReadTemplateVersion: when no own config (resp. icon)
was found, look the parent up in the published mapping by the first token
of the path and copy its fields; a missing parent is logged and leaves the
fields unchanged. -/
def applyInheritance (catalog : Catalog) (p : String) (t : Template)
    (foundConfig foundIcon : Bool) : Template :=
  let t2 :=
    if foundConfig then t
    else
      match catalog.lookup (parentOf p) with
      | some par =>
        { t with name := par.name, category := par.category
               , description := par.description
               , defaultVersion := par.defaultVersion }
      | none => t
  if foundIcon then t2
  else
    match catalog.lookup (parentOf p) with
    | some par => { t2 with iconLink := par.iconLink }
    | none => t2

/-- ReadTemplateVersion(path): reads catalogRoot+path; on a listing error
it logs and returns the template with only Path set; otherwise it runs the
subfile loop and then applies the inheritance rule for config fields and
for the icon.  none models a runtime panic inside the loop. -/
def readTemplateVersion (fs : FS) (catalog : Catalog) (p : String) :
    Option Template :=
  let t0 := { emptyTemplate with path := p }
  match readDirFS fs (catalogRoot ++ p) with
  | none => some t0
  | some dirList =>
    match processEntries fs p dirList (t0, false, false) with
    | none => none
    | some (t, foundConfig, foundIcon) =>
      some (applyInheritance catalog p t foundConfig foundIcon)

/-- The body of walkCatalog for one matching template directory: the new
template gets Path, the root config fields, then one pass over the listing
recording version links for subdirectories and the icon link for a
catalogIcon-prefixed file; a listing error is logged and leaves the
version links empty. -/
def buildTemplateSummary (fs : FS) (dirName : String) : Template :=
  let t0 := { emptyTemplate with path := dirName }
  let t1 := readTemplateConfig fs (tplDirPath dirName) t0
  match readDirFS fs (tplDirPath dirName) with
  | none => t1
  | some dirList =>
    dirList.foldl
      (fun t e =>
        if e.isDir then
          { t with versionLinks := mapInsert t.versionLinks e.name (dirName ++ "/" ++ e.name) }
        else if hasPfx "catalogIcon" e.name then
          { t with iconLink := dirName ++ "/" ++ e.name }
        else t)
      t1

/-- The effect of one visited path on the published mapping: only
directories one level below the root match the metadataFolder pattern and
install an entry (Catalog[f.Name()] = newTemplate); every other visited
path leaves the mapping unchanged. -/
def walkStep (fs : FS) (cat : Catalog) (e : FSEntry) : Catalog :=
  if e.isDir then mapInsert cat e.name (buildTemplateSummary fs e.name)
  else cat

/-- The walk over a list of root-level entries, updating the shared
mapping entry by entry in visit order. -/
def walkFold (fs : FS) (cat : Catalog) (es : List FSEntry) : Catalog :=
  es.foldl (walkStep fs) cat

/-- filepath.Walk(catalogRoot, walkCatalog) as it acts on the published
mapping: the walk lists the root once; each top-level directory matches
the metadataFolder pattern and installs its summary; deeper paths and
plain files never match and are omitted here.  If the root listing fails
the walk installs nothing. -/
def rebuildWalk (fs : FS) (cat : Catalog) : Catalog :=
  match readDirFS fs catalogRoot with
  | none => cat
  | some es => walkFold fs cat es

/-- The published mapping after the walk has visited the first k root
entries: the walk mutates the single shared map in place, so each of these
intermediate states is observable by a concurrent reader. -/
def rebuildMid (fs : FS) (cat : Catalog) (k : Nat) : Catalog :=
  match readDirFS fs catalogRoot with
  | none => cat
  | some es => walkFold fs cat (es.take k)

/-- Init: Catalog = make(map[string]model.Template) followed by the walk —
the only place the mapping is built from fresh. -/
def initCatalog (fs : FS) : Catalog :=
  rebuildWalk fs []

/-- Names of the template directories the current walk discovers. -/
def dirNames (es : List FSEntry) : List String :=
  (es.filter (fun e => e.isDir)).map (fun e => e.name)

/-- Template directory names discovered by a walk over fs. -/
def walkDirNames (fs : FS) : List String :=
  match readDirFS fs catalogRoot with
  | none => []
  | some es => dirNames es

/-- State of the refresh machinery: occupancy of the capacity-1 channel
refreshReqChannel, plus counters for the pullCatalog and walk invocations
performed so far. -/
structure RefreshState where
  gateFull : Bool
  pulls : Nat
  walks : Nat
deriving DecidableEq, Repr

/-- Atomic actions of RefreshCatalog: sending on the channel, the pull,
the walk, receiving from the channel, and the skip taken by the default
branch of the select. -/
inductive RefreshAct
  | acquire
  | pullStep
  | walkAll
  | release
  | skipStep
deriving DecidableEq, Repr

/-- Effect of one atomic action on the refresh state. -/
def runAct (s : RefreshState) : RefreshAct → RefreshState
  | RefreshAct.acquire => { s with gateFull := true }
  | RefreshAct.pullStep => { s with pulls := s.pulls + 1 }
  | RefreshAct.walkAll => { s with walks := s.walks + 1 }
  | RefreshAct.release => { s with gateFull := false }
  | RefreshAct.skipStep => s

/-- Run a sequence of atomic actions. -/
def runActs (s : RefreshState) (l : List RefreshAct) : RefreshState :=
  l.foldl runAct s

/-- The action sequence of an admitted RefreshCatalog invocation: send on
the channel, pull, walk, receive from the channel. -/
def admittedScript : List RefreshAct :=
  [RefreshAct.acquire, RefreshAct.pullStep, RefreshAct.walkAll, RefreshAct.release]

/-- The select statement of RefreshCatalog: if the capacity-1 channel has
room the invocation runs the admitted script, otherwise the default branch
logs and returns immediately (the request is dropped, not queued). -/
def refreshActs (s : RefreshState) : List RefreshAct :=
  if s.gateFull then [RefreshAct.skipStep] else admittedScript

/-- Two RefreshCatalog invocations, the second attempting the channel send
after the first has executed k of its actions; the second invocation's
actions (determined by the gate it observes) run, then the first finishes
its remaining actions. -/
def twoTriggers (s0 : RefreshState) (k : Nat) : RefreshState :=
  let mid := runActs s0 (admittedScript.take k)
  runActs mid (refreshActs mid ++ admittedScript.drop k)

/-- The four fields governed by the config-inheritance rule: name,
category, description, defaultVersion. -/
def coreFields (t : Template) : String × String × String × String :=
  (t.name, t.category, t.description, t.defaultVersion)

/-- Every compose file the subfile loop will dereference is readable: the
condition under which the loop cannot hit the nil-pointer panic. -/
abbrev composeReadable (fs : FS) (p : String) (es : List FSEntry) : Prop :=
  ∀ e ∈ es,
    (hasPfx "docker-compose" e.name = true ∨
      hasPfx "rancher-compose" e.name = true) →
    (readFileFS fs (versionFilePath p e.name)).isSome = true

theorem lookup_filter_ne {α : Type} (k k2 : String) (h : k2 ≠ k) :
    ∀ m : List (String × α),
      (m.filter (fun kv => kv.1 != k)).lookup k2 = m.lookup k2
  | [] => rfl
  | (a1, a2) :: m => by
    rcases eq_or_ne a1 k with hak | hak
    · subst hak
      have h1 : ((a1, a2) :: m).filter (fun kv => kv.1 != a1)
          = m.filter (fun kv => kv.1 != a1) := by
        simp [List.filter_cons]
      have h2 : (k2 == a1) = false := by
        simp [h]
      rw [h1, lookup_filter_ne a1 k2 h m]
      simp [List.lookup, h2]
    · have h1 : ((a1, a2) :: m).filter (fun kv => kv.1 != k)
          = (a1, a2) :: m.filter (fun kv => kv.1 != k) := by
        simp [List.filter_cons, hak]
      rw [h1]
      rcases eq_or_ne k2 a1 with he | he
      · subst he
        simp [List.lookup]
      · have h2 : (k2 == a1) = false := by
          simp [he]
        simp [List.lookup, h2, lookup_filter_ne k k2 h m]

theorem lookup_mapInsert_self {α : Type} (m : List (String × α)) (k : String)
    (v : α) : (mapInsert m k v).lookup k = some v := by
  simp [mapInsert, List.lookup]

theorem lookup_mapInsert_ne {α : Type} (m : List (String × α)) (k k2 : String)
    (v : α) (h : k2 ≠ k) : (mapInsert m k v).lookup k2 = m.lookup k2 := by
  have h2 : (k2 == k) = false := by
    simp [h]
  simp [mapInsert, List.lookup, h2, lookup_filter_ne k k2 h m]

theorem walkFold_lookup_not_discovered (fs : FS) (name : String) :
    ∀ (es : List FSEntry) (cat : Catalog), name ∉ dirNames es →
      (walkFold fs cat es).lookup name = cat.lookup name
  | [], _, _ => rfl
  | e :: es, cat, h => by
    have hstep : walkFold fs cat (e :: es) = walkFold fs (walkStep fs cat e) es := rfl
    rw [hstep]
    cases hd : e.isDir with
    | true =>
      have hdn : dirNames (e :: es) = e.name :: dirNames es := by
        simp [dirNames, List.filter_cons, hd]
      rw [hdn] at h
      rw [walkFold_lookup_not_discovered fs name es _
        (fun hm => h (List.mem_cons_of_mem _ hm))]
      have hne : name ≠ e.name := fun he => h (he ▸ List.mem_cons_self _ _)
      simp [walkStep, hd, lookup_mapInsert_ne _ _ _ _ hne]
    | false =>
      have hdn : dirNames (e :: es) = dirNames es := by
        simp [dirNames, List.filter_cons, hd]
      rw [hdn] at h
      rw [walkFold_lookup_not_discovered fs name es _ h]
      simp [walkStep, hd]

theorem walkFold_lookup_discovered (fs : FS) :
    ∀ (es : List FSEntry) (cat : Catalog) (e : FSEntry),
      (dirNames es).Nodup → e ∈ es → e.isDir = true →
      (walkFold fs cat es).lookup e.name = some (buildTemplateSummary fs e.name)
  | [], _, _, _, hmem, _ => absurd hmem (List.not_mem_nil _)
  | e0 :: es, cat, e, hnd, hmem, hd => by
    rcases List.mem_cons.mp hmem with he | he
    · subst he
      have hdn : dirNames (e :: es) = e.name :: dirNames es := by
        simp [dirNames, List.filter_cons, hd]
      rw [hdn] at hnd
      have hnotin : e.name ∉ dirNames es := (List.nodup_cons.mp hnd).1
      have hunf : walkFold fs cat (e :: es)
          = walkFold fs (mapInsert cat e.name (buildTemplateSummary fs e.name)) es := by
        simp [walkFold, walkStep, hd]
      rw [hunf, walkFold_lookup_not_discovered fs e.name es _ hnotin,
        lookup_mapInsert_self]
    · have hnd2 : (dirNames es).Nodup := by
        cases hd0 : e0.isDir with
        | false =>
          have hdn : dirNames (e0 :: es) = dirNames es := by
            simp [dirNames, List.filter_cons, hd0]
          rwa [hdn] at hnd
        | true =>
          have hdn : dirNames (e0 :: es) = e0.name :: dirNames es := by
            simp [dirNames, List.filter_cons, hd0]
          rw [hdn] at hnd
          exact (List.nodup_cons.mp hnd).2
      have hunf : walkFold fs cat (e0 :: es) = walkFold fs (walkStep fs cat e0) es := rfl
      rw [hunf]
      exact walkFold_lookup_discovered fs es _ e hnd2 he hd

theorem readTemplateConfig_shape (fs : FS) (rp : String) (t : Template) :
    (readTemplateConfig fs rp t).path = t.path ∧
    (readTemplateConfig fs rp t).iconLink = t.iconLink ∧
    (readTemplateConfig fs rp t).questions = t.questions ∧
    (readTemplateConfig fs rp t).versionLinks = t.versionLinks ∧
    (readTemplateConfig fs rp t).dockerCompose = t.dockerCompose ∧
    (readTemplateConfig fs rp t).rancherCompose = t.rancherCompose := by
  cases hfile : readFileFS fs (rp ++ "/config.yml") with
  | none => simp [readTemplateConfig, hfile]
  | some fd =>
    cases hmap : fd.asStringMap with
    | none => simp [readTemplateConfig, hfile, hmap]
    | some c => simp [readTemplateConfig, hfile, hmap]

theorem readTemplateConfig_fail (fs : FS) (rp : String) (t : Template)
    (hfile : readFileFS fs (rp ++ "/config.yml") = none) :
    readTemplateConfig fs rp t = t := by
  simp [readTemplateConfig, hfile]

theorem readTemplateConfig_sets (fs : FS) (rp : String) (t : Template)
    (fd : FileData) (c : List (String × String))
    (hfile : readFileFS fs (rp ++ "/config.yml") = some fd)
    (hmap : fd.asStringMap = some c) :
    coreFields (readTemplateConfig fs rp t)
      = (goGet c "name", goGet c "category", goGet c "description",
         goGet c "defaultVersion") := by
  simp [readTemplateConfig, hfile, hmap, coreFields]

theorem applyInheritance_questions (catalog : Catalog) (p : String)
    (t : Template) (fc fi : Bool) :
    (applyInheritance catalog p t fc fi).questions = t.questions := by
  cases hpar : catalog.lookup (parentOf p) <;>
    cases fc <;> cases fi <;> simp [applyInheritance, hpar]

theorem applyInheritance_path (catalog : Catalog) (p : String)
    (t : Template) (fc fi : Bool) :
    (applyInheritance catalog p t fc fi).path = t.path := by
  cases hpar : catalog.lookup (parentOf p) <;>
    cases fc <;> cases fi <;> simp [applyInheritance, hpar]

theorem applyInheritance_parent_missing (catalog : Catalog) (p : String)
    (t : Template) (fc fi : Bool)
    (hlook : catalog.lookup (parentOf p) = none) :
    applyInheritance catalog p t fc fi = t := by
  cases fc <;> cases fi <;> simp [applyInheritance, hlook]

theorem applyInheritance_config_found (catalog : Catalog) (p : String)
    (t : Template) (fi : Bool) :
    coreFields (applyInheritance catalog p t true fi) = coreFields t := by
  cases hpar : catalog.lookup (parentOf p) <;>
    cases fi <;> simp [applyInheritance, coreFields, hpar]

theorem applyInheritance_inherits (catalog : Catalog) (p : String)
    (t par : Template) (fi : Bool)
    (hlook : catalog.lookup (parentOf p) = some par) :
    coreFields (applyInheritance catalog p t false fi) = coreFields par := by
  cases fi <;> simp [applyInheritance, coreFields, hlook]


theorem processEntry_config (fs : FS) (p : String) (t : Template)
    (fc fi : Bool) (e : FSEntry)
    (hc : hasPfx "config.yml" e.name = true) :
    processEntry fs p (t, fc, fi) e
      = some (readTemplateConfig fs (catalogRoot ++ p) t, true, fi) := by
  simp [processEntry, hc]

theorem processEntry_icon (fs : FS) (p : String) (t : Template)
    (fc fi : Bool) (e : FSEntry)
    (hc : hasPfx "config.yml" e.name = false)
    (hi : hasPfx "catalogIcon" e.name = true) :
    processEntry fs p (t, fc, fi) e
      = some ({ t with iconLink := p ++ "/" ++ e.name }, fc, true) := by
  simp [processEntry, hc, hi]

theorem processEntry_docker_fail (fs : FS) (p : String) (t : Template)
    (fc fi : Bool) (e : FSEntry)
    (hc : hasPfx "config.yml" e.name = false)
    (hi : hasPfx "catalogIcon" e.name = false)
    (hd : hasPfx "docker-compose" e.name = true)
    (hf : readFileFS fs (versionFilePath p e.name) = none) :
    processEntry fs p (t, fc, fi) e = none := by
  simp [processEntry, hc, hi, hd, hf]

theorem processEntry_docker (fs : FS) (p : String) (t : Template)
    (fc fi : Bool) (e : FSEntry) (fd : FileData)
    (hc : hasPfx "config.yml" e.name = false)
    (hi : hasPfx "catalogIcon" e.name = false)
    (hd : hasPfx "docker-compose" e.name = true)
    (hf : readFileFS fs (versionFilePath p e.name) = some fd) :
    processEntry fs p (t, fc, fi) e
      = some ({ t with dockerCompose := fd.raw }, fc, fi) := by
  simp [processEntry, hc, hi, hd, hf]

theorem processEntry_rancher_fail (fs : FS) (p : String) (t : Template)
    (fc fi : Bool) (e : FSEntry)
    (hc : hasPfx "config.yml" e.name = false)
    (hi : hasPfx "catalogIcon" e.name = false)
    (hd : hasPfx "docker-compose" e.name = false)
    (hr : hasPfx "rancher-compose" e.name = true)
    (hf : readFileFS fs (versionFilePath p e.name) = none) :
    processEntry fs p (t, fc, fi) e = none := by
  simp [processEntry, hc, hi, hd, hr, hf]

theorem processEntry_rancher_nomap (fs : FS) (p : String) (t : Template)
    (fc fi : Bool) (e : FSEntry) (fd : FileData)
    (hc : hasPfx "config.yml" e.name = false)
    (hi : hasPfx "catalogIcon" e.name = false)
    (hd : hasPfx "docker-compose" e.name = false)
    (hr : hasPfx "rancher-compose" e.name = true)
    (hf : readFileFS fs (versionFilePath p e.name) = some fd)
    (hm : fd.asComposeMap = none) :
    processEntry fs p (t, fc, fi) e
      = some ({ t with rancherCompose := fd.raw }, fc, fi) := by
  simp [processEntry, hc, hi, hd, hr, hf, hm]

theorem processEntry_rancher (fs : FS) (p : String) (t : Template)
    (fc fi : Bool) (e : FSEntry) (fd : FileData)
    (rc : List (String × RancherCompose))
    (hc : hasPfx "config.yml" e.name = false)
    (hi : hasPfx "catalogIcon" e.name = false)
    (hd : hasPfx "docker-compose" e.name = false)
    (hr : hasPfx "rancher-compose" e.name = true)
    (hf : readFileFS fs (versionFilePath p e.name) = some fd)
    (hm : fd.asComposeMap = some rc) :
    processEntry fs p (t, fc, fi) e
      = some ({ t with rancherCompose := fd.raw
                     , questions := rc.foldl (fun _ kv => kv.2.questions) t.questions }
             , fc, fi) := by
  simp [processEntry, hc, hi, hd, hr, hf, hm]

theorem processEntry_other (fs : FS) (p : String) (t : Template)
    (fc fi : Bool) (e : FSEntry)
    (hc : hasPfx "config.yml" e.name = false)
    (hi : hasPfx "catalogIcon" e.name = false)
    (hd : hasPfx "docker-compose" e.name = false)
    (hr : hasPfx "rancher-compose" e.name = false) :
    processEntry fs p (t, fc, fi) e = some (t, fc, fi) := by
  simp [processEntry, hc, hi, hd, hr]

theorem processEntry_preserves (fs : FS) (p : String) (t : Template)
    (fc fi : Bool) (e : FSEntry) (acc2 : Template × Bool × Bool)
    (h : processEntry fs p (t, fc, fi) e = some acc2) :
    acc2.2.1 = (fc || hasPfx "config.yml" e.name) ∧
    acc2.1.path = t.path ∧
    (hasPfx "config.yml" e.name = true →
      acc2.1 = readTemplateConfig fs (catalogRoot ++ p) t) ∧
    (hasPfx "config.yml" e.name = false → coreFields acc2.1 = coreFields t) ∧
    (hasPfx "config.yml" e.name = false →
      hasPfx "catalogIcon" e.name = false → acc2.1.iconLink = t.iconLink) ∧
    (hasPfx "rancher-compose" e.name = false →
      acc2.1.questions = t.questions) := by
  by_cases hc : hasPfx "config.yml" e.name = true
  · rw [processEntry_config fs p t fc fi e hc] at h
    simp only [Option.some.injEq] at h
    subst h
    exact ⟨by simp [hc], (readTemplateConfig_shape fs _ t).1, fun _ => rfl,
      fun hx => by simp [hx] at hc, fun hx _ => by simp [hx] at hc,
      fun _ => (readTemplateConfig_shape fs _ t).2.2.1⟩
  · rw [Bool.not_eq_true] at hc
    by_cases hi : hasPfx "catalogIcon" e.name = true
    · rw [processEntry_icon fs p t fc fi e hc hi] at h
      simp only [Option.some.injEq] at h
      subst h
      exact ⟨by simp [hc], rfl, fun hx => by simp [hx] at hc,
        fun _ => rfl, fun _ hx => by simp [hx] at hi,
        fun _ => rfl⟩
    · rw [Bool.not_eq_true] at hi
      by_cases hd : hasPfx "docker-compose" e.name = true
      · cases hf : readFileFS fs (versionFilePath p e.name) with
        | none =>
          rw [processEntry_docker_fail fs p t fc fi e hc hi hd hf] at h
          exact absurd h (by simp)
        | some fd =>
          rw [processEntry_docker fs p t fc fi e fd hc hi hd hf] at h
          simp only [Option.some.injEq] at h
          subst h
          exact ⟨by simp [hc], rfl, fun hx => by simp [hx] at hc,
            fun _ => rfl, fun _ _ => rfl, fun _ => rfl⟩
      · rw [Bool.not_eq_true] at hd
        by_cases hr : hasPfx "rancher-compose" e.name = true
        · cases hf : readFileFS fs (versionFilePath p e.name) with
          | none =>
            rw [processEntry_rancher_fail fs p t fc fi e hc hi hd hr hf] at h
            exact absurd h (by simp)
          | some fd =>
            cases hm : fd.asComposeMap with
            | none =>
              rw [processEntry_rancher_nomap fs p t fc fi e fd hc hi hd hr hf hm] at h
              simp only [Option.some.injEq] at h
              subst h
              exact ⟨by simp [hc], rfl,
                fun hx => by simp [hx] at hc,
                fun _ => rfl, fun _ _ => rfl,
                fun hx => by simp [hx] at hr⟩
            | some rc =>
              rw [processEntry_rancher fs p t fc fi e fd rc hc hi hd hr hf hm] at h
              simp only [Option.some.injEq] at h
              subst h
              exact ⟨by simp [hc], rfl,
                fun hx => by simp [hx] at hc,
                fun _ => rfl, fun _ _ => rfl,
                fun hx => by simp [hx] at hr⟩
        · rw [Bool.not_eq_true] at hr
          rw [processEntry_other fs p t fc fi e hc hi hd hr] at h
          simp only [Option.some.injEq] at h
          subst h
          exact ⟨by simp [hc], rfl,
            fun hx => by simp [hx] at hc,
            fun _ => rfl, fun _ _ => rfl, fun _ => rfl⟩

theorem processEntry_total (fs : FS) (p : String) (acc : Template × Bool × Bool)
    (e : FSEntry)
    (h : (hasPfx "docker-compose" e.name = true ∨
        hasPfx "rancher-compose" e.name = true) →
      (readFileFS fs (versionFilePath p e.name)).isSome = true) :
    ∃ acc2, processEntry fs p acc e = some acc2 := by
  obtain ⟨t, fc, fi⟩ := acc
  by_cases hc : hasPfx "config.yml" e.name = true
  · exact ⟨_, processEntry_config fs p t fc fi e hc⟩
  · rw [Bool.not_eq_true] at hc
    by_cases hi : hasPfx "catalogIcon" e.name = true
    · exact ⟨_, processEntry_icon fs p t fc fi e hc hi⟩
    · rw [Bool.not_eq_true] at hi
      by_cases hd : hasPfx "docker-compose" e.name = true
      · obtain ⟨fd, hf⟩ := Option.isSome_iff_exists.mp (h (Or.inl hd))
        exact ⟨_, processEntry_docker fs p t fc fi e fd hc hi hd hf⟩
      · rw [Bool.not_eq_true] at hd
        by_cases hr : hasPfx "rancher-compose" e.name = true
        · obtain ⟨fd, hf⟩ := Option.isSome_iff_exists.mp (h (Or.inr hr))
          cases hm : fd.asComposeMap with
          | none => exact ⟨_, processEntry_rancher_nomap fs p t fc fi e fd hc hi hd hr hf hm⟩
          | some rc => exact ⟨_, processEntry_rancher fs p t fc fi e fd rc hc hi hd hr hf hm⟩
        · rw [Bool.not_eq_true] at hr
          exact ⟨_, processEntry_other fs p t fc fi e hc hi hd hr⟩

theorem processEntries_inv (fs : FS) (p : String)
    (P : Template × Bool × Bool → Prop) :
    ∀ (es : List FSEntry) (acc : Template × Bool × Bool),
      (∀ acc0 e, e ∈ es → P acc0 →
        ∃ acc1, processEntry fs p acc0 e = some acc1 ∧ P acc1) →
      P acc →
      ∃ acc2, processEntries fs p es acc = some acc2 ∧ P acc2
  | [], acc, _, hP => ⟨acc, rfl, hP⟩
  | e :: es, acc, hstep, hP => by
    obtain ⟨acc1, hpe, hP1⟩ := hstep acc e (List.mem_cons_self e es) hP
    obtain ⟨acc2, hpes, hP2⟩ := processEntries_inv fs p P es acc1
      (fun a0 e0 he0 => hstep a0 e0 (List.mem_cons_of_mem _ he0)) hP1
    exact ⟨acc2, by simp [processEntries, hpe, hpes], hP2⟩

theorem processEntries_foundConfig (fs : FS) (p : String) :
    ∀ (es : List FSEntry) (acc acc2 : Template × Bool × Bool),
      processEntries fs p es acc = some acc2 →
      acc2.2.1 = (acc.2.1 || es.any (fun e => hasPfx "config.yml" e.name))
  | [], acc, acc2, h => by
    simp only [processEntries, Option.some.injEq] at h
    subst h
    simp
  | e :: es, acc, acc2, h => by
    cases hpe : processEntry fs p acc e with
    | none => rw [processEntries, hpe] at h; exact absurd h (by simp)
    | some acc1 =>
      rw [processEntries, hpe] at h
      obtain ⟨t, fc, fi⟩ := acc
      have h1 := (processEntry_preserves fs p t fc fi e acc1 hpe).1
      have h2 := processEntries_foundConfig fs p es acc1 acc2 h
      rw [h2, h1]
      simp [Bool.or_assoc]

theorem processEntries_append (fs : FS) (p : String) :
    ∀ (es1 es2 : List FSEntry) (acc : Template × Bool × Bool),
      processEntries fs p (es1 ++ es2) acc =
        (match processEntries fs p es1 acc with
         | none => none
         | some acc1 => processEntries fs p es2 acc1)
  | [], _, acc => rfl
  | e :: es1, es2, acc => by
    simp only [List.cons_append, processEntries]
    cases processEntry fs p acc e with
    | none => rfl
    | some acc1 => exact processEntries_append fs p es1 es2 acc1

theorem foldl_questions_getLast :
    ∀ (rc : List (String × RancherCompose)) (kv : String × RancherCompose)
      (q0 : List Question), rc.getLast? = some kv →
      rc.foldl (fun _ kv2 => kv2.2.questions) q0 = kv.2.questions
  | [], _, _, h => by simp at h
  | [a], kv, q0, h => by
    simp only [List.getLast?_singleton, Option.some.injEq] at h
    subst h
    rfl
  | a :: b :: rest, kv, q0, h => by
    have h2 : (b :: rest).getLast? = some kv := by
      simpa using h
    have hunf : (a :: b :: rest).foldl (fun _ kv2 => kv2.2.questions) q0
        = (b :: rest).foldl (fun _ kv2 => kv2.2.questions) (a.2.questions) := rfl
    rw [hunf]
    exact foldl_questions_getLast (b :: rest) kv _ h2

/-- Claim C6: at most one refresh is in flight.  An invocation that finds
the capacity-1 gate occupied performs nothing (no pull, no walk) and drops
the request; and when a second trigger attempts the gate while the first
admitted invocation is anywhere between its acquire and its release
(k = 1, 2 or 3 of its 4 actions done), the pair performs exactly one pull
and one walk, ending with the gate free. -/
theorem c6_single_flight_refresh (s0 : RefreshState) (k : Nat) :
    (s0.gateFull = true → runActs s0 (refreshActs s0) = s0) ∧
    (s0.gateFull = false → 1 ≤ k → k ≤ 3 →
      twoTriggers s0 k
        = { gateFull := false, pulls := s0.pulls + 1, walks := s0.walks + 1 }) := by
  constructor
  · intro hg
    simp [refreshActs, hg, runActs, runAct]
  · intro hg h1 h3
    interval_cases k <;>
      simp [twoTriggers, runActs, runAct, refreshActs, admittedScript]

/-- Claim C6 witness: from an idle state, two triggers with the second
arriving mid-refresh yield exactly one pull and one walk. -/
theorem c6_witness :
    twoTriggers { gateFull := false, pulls := 0, walks := 0 } 2
      = { gateFull := false, pulls := 1, walks := 1 } :=
  (c6_single_flight_refresh { gateFull := false, pulls := 0, walks := 0 } 2).2
    rfl (by decide) (by decide)

/-- The source tree for the first walk: two template directories t1, t2. -/
def fsInitC1 : FS :=
  { dirs := [ (catalogRoot, [⟨"t1", true⟩, ⟨"t2", true⟩])
            , (tplDirPath "t1", []), (tplDirPath "t2", []) ]
  , files := [] }

/-- The source tree for the refresh walk: t2 has been deleted. -/
def fsRefreshC1 : FS :=
  { dirs := [ (catalogRoot, [⟨"t1", true⟩]), (tplDirPath "t1", []) ]
  , files := [] }

/-- Claim C1 (counterexample): after a refresh walk over a tree from which
template directory t2 has been removed, the published mapping still
contains the t2 entry produced by the earlier walk — the rebuild neither
starts from a fresh mapping nor replaces the published one. -/
theorem c1_counterexample_stale_entry_survives :
    walkDirNames fsRefreshC1 = ["t1"] ∧
    (rebuildWalk fsRefreshC1 (initCatalog fsInitC1)).lookup "t2"
      = some { emptyTemplate with path := "t2" } := by
  constructor
  · rfl
  · rfl

/-- Claim C1 (amended): only Init builds the mapping starting from a fresh
empty map; a refresh walk updates the existing published mapping in place,
one discovered directory at a time, and an entry whose template directory
is absent from the current tree is left untouched and survives the
refresh. -/
theorem c1_amended_refresh_mutates_published_mapping (fs : FS)
    (cat : Catalog) (name : String) (h : name ∉ walkDirNames fs) :
    (rebuildWalk fs cat).lookup name = cat.lookup name ∧
    (initCatalog fs).lookup name = none := by
  cases hroot : readDirFS fs catalogRoot with
  | none =>
    constructor
    · simp [rebuildWalk, hroot]
    · simp [initCatalog, rebuildWalk, hroot, List.lookup]
  | some es =>
    have h2 : name ∉ dirNames es := by
      simpa [walkDirNames, hroot] using h
    constructor
    · simp only [rebuildWalk, hroot]
      exact walkFold_lookup_not_discovered fs name es cat h2
    · simp only [initCatalog, rebuildWalk, hroot]
      rw [walkFold_lookup_not_discovered fs name es [] h2]
      rfl

/-- Claim C1 witness: instantiating the amended statement at the concrete
deleted-template scenario. -/
theorem c1_witness :
    (rebuildWalk fsRefreshC1 (initCatalog fsInitC1)).lookup "t2"
        = (initCatalog fsInitC1).lookup "t2" ∧
      (initCatalog fsRefreshC1).lookup "t2" = none :=
  c1_amended_refresh_mutates_published_mapping fsRefreshC1
    (initCatalog fsInitC1) "t2" (by decide)

/-- The tree as it stood when the pre-rebuild mapping was built: neither
template directory contains an icon. -/
def fsTreeC2a : FS :=
  { dirs := [ (catalogRoot, [⟨"t1", true⟩, ⟨"t2", true⟩])
            , (tplDirPath "t1", []), (tplDirPath "t2", []) ]
  , files := [] }

/-- The tree at refresh time: both template directories gained an icon, so
both summaries change. -/
def fsTreeC2b : FS :=
  { dirs := [ (catalogRoot, [⟨"t1", true⟩, ⟨"t2", true⟩])
            , (tplDirPath "t1", [⟨"catalogIcon-a.png", false⟩])
            , (tplDirPath "t2", [⟨"catalogIcon-b.png", false⟩]) ]
  , files := [] }

/-- The published mapping before the refresh walk. -/
def preC2 : Catalog := rebuildWalk fsTreeC2a []

/-- The published mapping a reader observes after the walk has visited t1
but not yet t2. -/
def midC2 : Catalog := rebuildMid fsTreeC2b preC2 1

/-- The published mapping after the refresh walk completes. -/
def postC2 : Catalog := rebuildWalk fsTreeC2b preC2

/-- Claim C2 (counterexample): the observable mid-walk mapping agrees with
the post-rebuild mapping on t1 and with the pre-rebuild mapping on t2,
while pre and post genuinely differ on both — a reader concurrent with the
walk can observe a mixture of old and new entries. -/
theorem c2_counterexample_mixed_state_observable :
    midC2.lookup "t1" = postC2.lookup "t1" ∧
    midC2.lookup "t1" ≠ preC2.lookup "t1" ∧
    midC2.lookup "t2" = preC2.lookup "t2" ∧
    midC2.lookup "t2" ≠ postC2.lookup "t2" := by
  have h1 : midC2.lookup "t1"
      = some { emptyTemplate with path := "t1", iconLink := "t1/catalogIcon-a.png" } := rfl
  have h2 : preC2.lookup "t1" = some { emptyTemplate with path := "t1" } := rfl
  have h4 : midC2.lookup "t2" = some { emptyTemplate with path := "t2" } := rfl
  have h6 : postC2.lookup "t2"
      = some { emptyTemplate with path := "t2", iconLink := "t2/catalogIcon-b.png" } := rfl
  refine ⟨rfl, ?_, rfl, ?_⟩
  · rw [h1, h2]
    intro heq
    have hfield :=
      congrArg (fun o : Option Template => (o.getD emptyTemplate).iconLink) heq
    exact absurd hfield (by decide)
  · rw [h4, h6]
    intro heq
    have hfield :=
      congrArg (fun o : Option Template => (o.getD emptyTemplate).iconLink) heq
    exact absurd hfield (by decide)

/-- Claim C2 (amended): the walk mutates the single shared mapping in
place, so a concurrent reader can observe the state after any number k of
visited root entries; that state maps every not-yet-visited name to its
pre-rebuild entry and every already-visited template directory to its
freshly built summary — for intermediate k a mixture of both mappings. -/
theorem c2_amended_reader_sees_prefix_of_walk (fs : FS) (cat : Catalog)
    (es : List FSEntry) (k : Nat) (name : String)
    (hroot : readDirFS fs catalogRoot = some es) :
    (name ∉ dirNames (es.take k) →
      (rebuildMid fs cat k).lookup name = cat.lookup name) ∧
    ((dirNames es).Nodup → name ∈ dirNames (es.take k) →
      (rebuildMid fs cat k).lookup name
        = some (buildTemplateSummary fs name)) := by
  constructor
  · intro h
    simp only [rebuildMid, hroot]
    exact walkFold_lookup_not_discovered fs name (es.take k) cat h
  · intro hnd hmem
    simp only [rebuildMid, hroot]
    simp only [dirNames, List.mem_map] at hmem
    obtain ⟨e, hef, hename⟩ := hmem
    have hemem := (List.mem_filter.mp hef).1
    have hedir : e.isDir = true := by
      have := (List.mem_filter.mp hef).2
      simpa using this
    have hnd2 : (dirNames (es.take k)).Nodup := by
      refine hnd.sublist ?_
      exact ((List.take_sublist k es).filter _).map _
    have hres := walkFold_lookup_discovered fs (es.take k) cat e hnd2 hemem hedir
    rw [hename] at hres
    exact hres

/-- Claim C2 witness: at the concrete two-template refresh, the mid-walk
state still maps t2 to its pre-rebuild entry while already mapping t1 to
its new summary. -/
theorem c2_witness :
    midC2.lookup "t2" = preC2.lookup "t2" ∧
    midC2.lookup "t1" = some (buildTemplateSummary fsTreeC2b "t1") :=
  ⟨(c2_amended_reader_sees_prefix_of_walk fsTreeC2b preC2
      [⟨"t1", true⟩, ⟨"t2", true⟩] 1 "t2" (by decide)).1 (by decide),
   (c2_amended_reader_sees_prefix_of_walk fsTreeC2b preC2
      [⟨"t1", true⟩, ⟨"t2", true⟩] 1 "t1" (by decide)).2 (by decide) (by decide)⟩

/-- The walk tree for C8: the listing of template directory t1 cannot be
read, t2 is fine. -/
def fsC8 : FS :=
  { dirs := [ (catalogRoot, [⟨"t1", true⟩, ⟨"t2", true⟩])
            , (tplDirPath "t2", []) ]
  , files := [] }

/-- Claim C8 (counterexample): a template directory whose listing cannot
be read is NOT excluded from the index — walkCatalog still installs its
entry (line 140 runs regardless of the ReadDir error). -/
theorem c8_counterexample_unreadable_template_still_installed :
    readDirFS fsC8 (tplDirPath "t1") = none ∧
    ((rebuildWalk fsC8 []).lookup "t1").isSome = true := by
  exact ⟨rfl, rfl⟩

/-- Claim C8 (amended): a template directory whose listing cannot be read
is installed into the index with partial fields — path and any root-config
fields, empty version links, empty icon and compose fields — after a
logged diagnostic, and the failure never aborts the rest of the walk:
every discovered template directory still gets an entry. -/
theorem c8_amended_partial_install_and_walk_continues (fs : FS)
    (cat : Catalog) (es : List FSEntry) (d : FSEntry)
    (hroot : readDirFS fs catalogRoot = some es)
    (hmem : d ∈ es) (hdir : d.isDir = true)
    (hfail : readDirFS fs (tplDirPath d.name) = none)
    (hnd : (dirNames es).Nodup) :
    (∃ t, (rebuildWalk fs cat).lookup d.name = some t ∧
      t.versionLinks = [] ∧ t.iconLink = "" ∧ t.path = d.name ∧
      t.dockerCompose = "" ∧ t.rancherCompose = "" ∧ t.questions = []) ∧
    (∀ e ∈ es, e.isDir = true →
      ((rebuildWalk fs cat).lookup e.name).isSome = true) := by
  constructor
  · have hb : buildTemplateSummary fs d.name
        = readTemplateConfig fs (tplDirPath d.name)
            { emptyTemplate with path := d.name } := by
      simp [buildTemplateSummary, hfail]
    obtain ⟨hp, hic, hq, hvl, hdc, hrc⟩ :=
      readTemplateConfig_shape fs (tplDirPath d.name)
        { emptyTemplate with path := d.name }
    refine ⟨buildTemplateSummary fs d.name, ?_, ?_, ?_, ?_, ?_, ?_, ?_⟩
    · simp only [rebuildWalk, hroot]
      exact walkFold_lookup_discovered fs es cat d hnd hmem hdir
    · rw [hb]
      exact hvl.trans rfl
    · rw [hb]
      exact hic.trans rfl
    · rw [hb]
      exact hp.trans rfl
    · rw [hb]
      exact hdc.trans rfl
    · rw [hb]
      exact hrc.trans rfl
    · rw [hb]
      exact hq.trans rfl
  · intro e he hedir
    simp only [rebuildWalk, hroot]
    rw [walkFold_lookup_discovered fs es cat e hnd he hedir]
    rfl

/-- Claim C8 witness: the concrete scenario with t1 unreadable and t2
healthy. -/
theorem c8_witness :
    (∃ t, (rebuildWalk fsC8 []).lookup "t1" = some t ∧
      t.versionLinks = [] ∧ t.iconLink = "" ∧ t.path = "t1" ∧
      t.dockerCompose = "" ∧ t.rancherCompose = "" ∧ t.questions = []) ∧
    (∀ e ∈ [FSEntry.mk "t1" true, FSEntry.mk "t2" true], e.isDir = true →
      ((rebuildWalk fsC8 []).lookup e.name).isSome = true) :=
  c8_amended_partial_install_and_walk_continues fsC8 []
    [⟨"t1", true⟩, ⟨"t2", true⟩] ⟨"t1", true⟩
    (by decide) (by decide) rfl (by decide) (by decide)

/-- The failing input for C3: the version directory lists a
docker-compose.yml whose contents cannot be read. -/
def fsC3 : FS :=
  { dirs := [ ("./DATA/templates/broken/0", [⟨"docker-compose.yml", false⟩]) ]
  , files := [] }

/-- Claim C3 (the code at the failing input): when the read of a listed
docker-compose file fails, readFile returns a nil pointer and
ReadTemplateVersion dereferences it — string(*(readFile ...)) — so the
operation panics (modelled as none) instead of logging, treating the file
as absent and returning normally. -/
theorem c3_crash_on_unreadable_compose :
    readTemplateVersion fsC3 [] "broken/0" = none := rfl

/-- A filesystem with no directories at all: the requested version
directory does not exist. -/
def fsC5missing : FS := { dirs := [], files := [] }

/-- A filesystem where the version directory exists and its config file is
present but fails to parse. -/
def fsC5parseErr : FS :=
  { dirs := [ ("./DATA/templates/t/1", [⟨"config.yml", false⟩]) ]
  , files := [ ("./DATA/templates/t/1/config.yml",
      { raw := "::notyaml", asStringMap := none, asComposeMap := none }) ] }

/-- Claim C5 (counterexample): a lookup whose version directory does not
exist returns the very same value as a lookup that hit a parse error —
a bare Template with only Path set, with no error component at all — so
the caller cannot distinguish a NotFound condition from a parse error. -/
theorem c5_counterexample_not_found_indistinguishable :
    readTemplateVersion fsC5missing [] "t/1"
        = readTemplateVersion fsC5parseErr [] "t/1" ∧
      readTemplateVersion fsC5missing [] "t/1"
        = some { emptyTemplate with path := "t/1" } := by
  exact ⟨rfl, rfl⟩

/-- Claim C5 (amended): when the version directory cannot be read,
ReadTemplateVersion logs the error and returns a Template carrying only
the path — the function's only result type, not a typed not-found signal;
and a lookup never fails merely because optional metadata is missing: as
long as every listed compose file is readable, the operation returns a
value. -/
theorem c5_amended_no_typed_not_found (fs : FS) (catalog : Catalog)
    (p : String) (es : List FSEntry) :
    (readDirFS fs (catalogRoot ++ p) = none →
      readTemplateVersion fs catalog p = some { emptyTemplate with path := p }) ∧
    (readDirFS fs (catalogRoot ++ p) = some es → composeReadable fs p es →
      (readTemplateVersion fs catalog p).isSome = true) := by
  constructor
  · intro h
    simp [readTemplateVersion, h]
  · intro h hcr
    obtain ⟨acc2, hfold, -⟩ := processEntries_inv fs p (fun _ => True) es
      ({ emptyTemplate with path := p }, false, false)
      (fun acc0 e he _ => by
        obtain ⟨a, ha⟩ := processEntry_total fs p acc0 e (fun hor => hcr e he hor)
        exact ⟨a, ha, trivial⟩)
      trivial
    obtain ⟨t, fc, fi⟩ := acc2
    simp [readTemplateVersion, h, hfold]

/-- Claim C5 witness: the missing-directory lookup returns the bare
template, and the parse-error lookup still returns a value. -/
theorem c5_witness :
    readTemplateVersion fsC5missing [] "t/1"
        = some { emptyTemplate with path := "t/1" } ∧
      (readTemplateVersion fsC5parseErr [] "t/1").isSome = true :=
  ⟨(c5_amended_no_typed_not_found fsC5missing [] "t/1" []).1 rfl,
   (c5_amended_no_typed_not_found fsC5parseErr [] "t/1"
      [⟨"config.yml", false⟩]).2 rfl (by decide)⟩

/-- Claim C7: when the version directory reads fine, contains neither a
config-prefixed nor an icon-prefixed file, every listed compose file is
readable, and the template id has no entry in the published mapping, the
lookup returns normally with all would-be-inherited fields (name,
category, description, defaultVersion, iconLink) left empty. -/
theorem c7_missing_parent_resilience (fs : FS) (catalog : Catalog)
    (p : String) (es : List FSEntry)
    (hroot : readDirFS fs (catalogRoot ++ p) = some es)
    (hnc : ∀ e ∈ es, hasPfx "config.yml" e.name = false)
    (hni : ∀ e ∈ es, hasPfx "catalogIcon" e.name = false)
    (hcr : composeReadable fs p es)
    (hlook : catalog.lookup (parentOf p) = none) :
    ∃ t, readTemplateVersion fs catalog p = some t ∧
      t.name = "" ∧ t.category = "" ∧ t.description = "" ∧
      t.defaultVersion = "" ∧ t.iconLink = "" := by
  obtain ⟨⟨t, fc, fi⟩, hfold, hP⟩ := processEntries_inv fs p
    (fun acc => coreFields acc.1 = ("", "", "", "") ∧ acc.1.iconLink = "")
    es ({ emptyTemplate with path := p }, false, false)
    (fun acc0 e he hP0 => by
      obtain ⟨t0, fc0, fi0⟩ := acc0
      obtain ⟨acc1, ha⟩ := processEntry_total fs p (t0, fc0, fi0) e
        (fun hor => hcr e he hor)
      have hpres := processEntry_preserves fs p t0 fc0 fi0 e acc1 ha
      refine ⟨acc1, ha, ?_, ?_⟩
      · rw [hpres.2.2.2.1 (hnc e he)]
        exact hP0.1
      · rw [hpres.2.2.2.2.1 (hnc e he) (hni e he)]
        exact hP0.2)
    ⟨rfl, rfl⟩
  have hcore : t.name = "" ∧ t.category = "" ∧ t.description = "" ∧
      t.defaultVersion = "" := by
    have hx := hP.1
    simp only [coreFields, Prod.mk.injEq] at hx
    exact ⟨hx.1, hx.2.1, hx.2.2.1, hx.2.2.2⟩
  have hai := applyInheritance_parent_missing catalog p t fc fi hlook
  refine ⟨applyInheritance catalog p t fc fi,
    by simp [readTemplateVersion, hroot, hfold], ?_, ?_, ?_, ?_, ?_⟩
  · rw [hai]; exact hcore.1
  · rw [hai]; exact hcore.2.1
  · rw [hai]; exact hcore.2.2.1
  · rw [hai]; exact hcore.2.2.2
  · rw [hai]; exact hP.2

/-- The C7 scenario: the directory ghost/1 exists with a readable compose
file, but "ghost" is not in the published mapping. -/
def fsC7 : FS :=
  { dirs := [ ("./DATA/templates/ghost/1", [⟨"docker-compose.yml", false⟩]) ]
  , files := [ ("./DATA/templates/ghost/1/docker-compose.yml",
      { raw := "web: nginx", asStringMap := none, asComposeMap := none }) ] }

/-- Claim C7 witness: getVersion of ghost/1 against an empty published
mapping yields empty inherited fields, not a crash. -/
theorem c7_witness :
    ∃ t, readTemplateVersion fsC7 [] "ghost/1" = some t ∧
      t.name = "" ∧ t.category = "" ∧ t.description = "" ∧
      t.defaultVersion = "" ∧ t.iconLink = "" :=
  c7_missing_parent_resilience fsC7 [] "ghost/1"
    [⟨"docker-compose.yml", false⟩]
    (by decide) (by decide) (by decide) (by decide) rfl

/-- Claim C10: a version directory containing some file whose name merely
starts with "config.yml" marks own-config as found even when the exact
file config.yml does not exist (its read fails): inheritance of name,
category, description and defaultVersion is suppressed for every published
mapping, and since readTemplateConfig reads only the exact path
config.yml, the four fields come back empty. -/
theorem c10_config_prefix_suppresses_inheritance (fs : FS)
    (catalog : Catalog) (p : String) (es : List FSEntry)
    (hroot : readDirFS fs (catalogRoot ++ p) = some es)
    (hsome : es.any (fun e => hasPfx "config.yml" e.name) = true)
    (hcfgfail : readFileFS fs ((catalogRoot ++ p) ++ "/config.yml") = none)
    (hcr : composeReadable fs p es) :
    ∃ t, readTemplateVersion fs catalog p = some t ∧
      t.name = "" ∧ t.category = "" ∧ t.description = "" ∧
      t.defaultVersion = "" := by
  obtain ⟨⟨t, fc, fi⟩, hfold, hP⟩ := processEntries_inv fs p
    (fun acc => coreFields acc.1 = ("", "", "", ""))
    es ({ emptyTemplate with path := p }, false, false)
    (fun acc0 e he hP0 => by
      obtain ⟨t0, fc0, fi0⟩ := acc0
      obtain ⟨acc1, ha⟩ := processEntry_total fs p (t0, fc0, fi0) e
        (fun hor => hcr e he hor)
      have hpres := processEntry_preserves fs p t0 fc0 fi0 e acc1 ha
      refine ⟨acc1, ha, ?_⟩
      show coreFields acc1.1 = ("", "", "", "")
      by_cases hce : hasPfx "config.yml" e.name = true
      · rw [hpres.2.2.1 hce,
          readTemplateConfig_fail fs (catalogRoot ++ p) t0 hcfgfail]
        exact hP0
      · rw [Bool.not_eq_true] at hce
        rw [hpres.2.2.2.1 hce]
        exact hP0)
    rfl
  have hfc : fc = true := by
    have hflag := processEntries_foundConfig fs p es _ _ hfold
    simpa [hsome] using hflag
  subst hfc
  have hx : coreFields (applyInheritance catalog p t true fi)
      = ("", "", "", "") :=
    (applyInheritance_config_found catalog p t fi).trans hP
  simp only [coreFields, Prod.mk.injEq] at hx
  exact ⟨applyInheritance catalog p t true fi,
    by simp [readTemplateVersion, hroot, hfold],
    hx.1, hx.2.1, hx.2.2.1, hx.2.2.2⟩

/-- The C10 scenario: t/1 holds only config.yml.bak; the parent template
has every inheritable field populated. -/
def fsC10 : FS :=
  { dirs := [ ("./DATA/templates/t/1", [⟨"config.yml.bak", false⟩]) ]
  , files := [ ("./DATA/templates/t/1/config.yml.bak",
      { raw := "name: B", asStringMap := some [("name", "B")], asComposeMap := none }) ] }

/-- The published mapping for the C10 scenario. -/
def catC10 : Catalog :=
  [("t", { path := "t", name := "A", category := "C", description := "D"
         , defaultVersion := "V", iconLink := "", dockerCompose := ""
         , rancherCompose := "", questions := [], versionLinks := [] })]

/-- Claim C10 witness: the concrete config.yml.bak directory yields empty
name, category, description and defaultVersion although the parent carries
values for all four. -/
theorem c10_witness :
    ∃ t, readTemplateVersion fsC10 catC10 "t/1" = some t ∧
      t.name = "" ∧ t.category = "" ∧ t.description = "" ∧
      t.defaultVersion = "" :=
  c10_config_prefix_suppresses_inheritance fsC10 catC10 "t/1"
    [⟨"config.yml.bak", false⟩] (by decide) (by decide) rfl (by decide)

/-- The C4 counterexample scenario: identical tree to C10 but its own
constants, with a parent carrying name A. -/
def fsC4 : FS :=
  { dirs := [ ("./DATA/templates/t/1", [⟨"config.yml.bak", false⟩]) ]
  , files := [ ("./DATA/templates/t/1/config.yml.bak",
      { raw := "name: B", asStringMap := some [("name", "B")], asComposeMap := none }) ] }

/-- The published mapping for the C4 counterexample. -/
def catC4 : Catalog :=
  [("t", { path := "t", name := "A", category := "C", description := ""
         , defaultVersion := "", iconLink := "", dockerCompose := ""
         , rancherCompose := "", questions := [], versionLinks := [] })]

/-- Claim C4 (counterexample): a version directory whose only config-like
entry is config.yml.bak (no exact config.yml) returns name "" — neither
the parent's "A" (so the fields are not inherited although the directory
contains no config file named config.yml) nor the .bak file's parsed "B"
(so they are not populated from the config-prefixed file either). -/
theorem c4_counterexample_prefix_named_config_file :
    (readTemplateVersion fsC4 catC4 "t/1").map (fun t => t.name) = some "" ∧
    (catC4.lookup "t").map (fun t => t.name) = some "A" ∧
    (readFileFS fsC4 "./DATA/templates/t/1/config.yml.bak").map
        (fun fd => fd.asStringMap) = some (some [("name", "B")]) := by
  exact ⟨rfl, rfl, rfl⟩

/-- Claim C4 (amended): if the version directory contains a file whose
name starts with config.yml and the exact file config.yml reads and parses
as a string map c, the four fields are populated from c; if the directory
contains no file whose name starts with config.yml, the four fields are
inherited verbatim from the parent summary found in the published
mapping. -/
theorem c4_amended_config_vs_inheritance (fs : FS) (catalog : Catalog)
    (p : String) (es : List FSEntry) (fd : FileData)
    (c : List (String × String)) (par : Template)
    (hroot : readDirFS fs (catalogRoot ++ p) = some es)
    (hcr : composeReadable fs p es) :
    (es.any (fun e => hasPfx "config.yml" e.name) = true →
      readFileFS fs ((catalogRoot ++ p) ++ "/config.yml") = some fd →
      fd.asStringMap = some c →
      ∃ t, readTemplateVersion fs catalog p = some t ∧
        t.name = goGet c "name" ∧ t.category = goGet c "category" ∧
        t.description = goGet c "description" ∧
        t.defaultVersion = goGet c "defaultVersion") ∧
    (es.any (fun e => hasPfx "config.yml" e.name) = false →
      catalog.lookup (parentOf p) = some par →
      ∃ t, readTemplateVersion fs catalog p = some t ∧
        t.name = par.name ∧ t.category = par.category ∧
        t.description = par.description ∧
        t.defaultVersion = par.defaultVersion) := by
  constructor
  · intro hsome hfile hmap
    obtain ⟨⟨t, fc, fi⟩, hfold, hP⟩ := processEntries_inv fs p
      (fun acc => acc.2.1 = true →
        coreFields acc.1 = (goGet c "name", goGet c "category",
          goGet c "description", goGet c "defaultVersion"))
      es ({ emptyTemplate with path := p }, false, false)
      (fun acc0 e he hP0 => by
        obtain ⟨t0, fc0, fi0⟩ := acc0
        obtain ⟨acc1, ha⟩ := processEntry_total fs p (t0, fc0, fi0) e
          (fun hor => hcr e he hor)
        have hpres := processEntry_preserves fs p t0 fc0 fi0 e acc1 ha
        by_cases hce : hasPfx "config.yml" e.name = true
        · refine ⟨acc1, ha, fun _ => ?_⟩
          rw [hpres.2.2.1 hce]
          exact readTemplateConfig_sets fs (catalogRoot ++ p) t0 fd c hfile hmap
        · rw [Bool.not_eq_true] at hce
          refine ⟨acc1, ha, fun hfc1 => ?_⟩
          have h1 := hpres.1
          rw [hce, Bool.or_false] at h1
          rw [h1] at hfc1
          rw [hpres.2.2.2.1 hce]
          exact hP0 hfc1)
      (fun hx => absurd hx (by simp))
    have hfc : fc = true := by
      have hflag := processEntries_foundConfig fs p es _ _ hfold
      simpa [hsome] using hflag
    subst hfc
    have hx : coreFields (applyInheritance catalog p t true fi)
        = (goGet c "name", goGet c "category", goGet c "description",
           goGet c "defaultVersion") :=
      (applyInheritance_config_found catalog p t fi).trans (hP rfl)
    simp only [coreFields, Prod.mk.injEq] at hx
    exact ⟨applyInheritance catalog p t true fi,
      by simp [readTemplateVersion, hroot, hfold],
      hx.1, hx.2.1, hx.2.2.1, hx.2.2.2⟩
  · intro hnone hpar
    have hallc : ∀ e2 ∈ es, hasPfx "config.yml" e2.name = false := by
      intro e2 he2
      cases hx : hasPfx "config.yml" e2.name with
      | false => rfl
      | true =>
        have hany : es.any (fun e => hasPfx "config.yml" e.name) = true :=
          List.any_eq_true.mpr ⟨e2, he2, hx⟩
        exact absurd (hnone.symm.trans hany) (by decide)
    obtain ⟨⟨t, fc, fi⟩, hfold, hP⟩ := processEntries_inv fs p
      (fun acc => coreFields acc.1 = ("", "", "", ""))
      es ({ emptyTemplate with path := p }, false, false)
      (fun acc0 e he hP0 => by
        obtain ⟨t0, fc0, fi0⟩ := acc0
        obtain ⟨acc1, ha⟩ := processEntry_total fs p (t0, fc0, fi0) e
          (fun hor => hcr e he hor)
        have hpres := processEntry_preserves fs p t0 fc0 fi0 e acc1 ha
        refine ⟨acc1, ha, ?_⟩
        show coreFields acc1.1 = ("", "", "", "")
        rw [hpres.2.2.2.1 (hallc e he)]
        exact hP0)
      rfl
    have hfc : fc = false := by
      have hflag := processEntries_foundConfig fs p es _ _ hfold
      simpa [hnone] using hflag
    subst hfc
    have hx : coreFields (applyInheritance catalog p t false fi)
        = coreFields par :=
      applyInheritance_inherits catalog p t par fi hpar
    simp only [coreFields, Prod.mk.injEq] at hx
    exact ⟨applyInheritance catalog p t false fi,
      by simp [readTemplateVersion, hroot, hfold],
      hx.1, hx.2.1, hx.2.2.1, hx.2.2.2⟩

/-- The C4 own-config scenario: t/1 carries its own parseable
config.yml with name B. -/
def fsC4own : FS :=
  { dirs := [ ("./DATA/templates/t/1", [⟨"config.yml", false⟩]) ]
  , files := [ ("./DATA/templates/t/1/config.yml",
      { raw := "name: B", asStringMap := some [("name", "B")], asComposeMap := none }) ] }

/-- The C4 inheritance scenario: t/1 holds only a compose file; the parent
carries name A and category C. -/
def fsC4inh : FS :=
  { dirs := [ ("./DATA/templates/t/1", [⟨"docker-compose.yml", false⟩]) ]
  , files := [ ("./DATA/templates/t/1/docker-compose.yml",
      { raw := "web: nginx", asStringMap := none, asComposeMap := none }) ] }

/-- The published mapping for the C4 inheritance scenario. -/
def catC4inh : Catalog :=
  [("t", { path := "t", name := "A", category := "C", description := ""
         , defaultVersion := "", iconLink := "", dockerCompose := ""
         , rancherCompose := "", questions := [], versionLinks := [] })]

/-- Claim C4 witness: a version-local config.yml with name B yields name
B, and a version directory without any config-prefixed file inherits
name A and category C from the parent. -/
theorem c4_witness :
    (∃ t, readTemplateVersion fsC4own [] "t/1" = some t ∧
      t.name = "B" ∧ t.category = "" ∧ t.description = "" ∧
      t.defaultVersion = "") ∧
    (∃ t, readTemplateVersion fsC4inh catC4inh "t/1" = some t ∧
      t.name = "A" ∧ t.category = "C" ∧ t.description = "" ∧
      t.defaultVersion = "") :=
  ⟨(c4_amended_config_vs_inheritance fsC4own [] "t/1"
      [⟨"config.yml", false⟩]
      { raw := "name: B", asStringMap := some [("name", "B")], asComposeMap := none }
      [("name", "B")] emptyTemplate (by decide) (by decide)).1
      (by decide) (by decide) (by decide),
   (c4_amended_config_vs_inheritance fsC4inh catC4inh "t/1"
      [⟨"docker-compose.yml", false⟩]
      { raw := "", asStringMap := none, asComposeMap := none }
      [] (catC4inh.headD ("", emptyTemplate)).2 (by decide) (by decide)).2
      (by decide) (by decide)⟩

/-- The one question of the C9 scenario. -/
def qC9 : Question :=
  { varName := "scale", qDescription := "number of nodes", qLabel := "Nodes"
  , required := true, defaultValue := "3", qType := "int" }

/-- The parsed section mapping of the C9 scenario, in the iteration order
the Go runtime may use: the .catalog section carrying the only questions
list first, an empty web section last. -/
def rcC9 : List (String × RancherCompose) :=
  [(".catalog", ⟨[qC9]⟩), ("web", ⟨[]⟩)]

/-- The C9 version directory with one rancher-compose file. -/
def fsC9 : FS :=
  { dirs := [ ("./DATA/templates/t/1", [⟨"rancher-compose.yml", false⟩]) ]
  , files := [ ("./DATA/templates/t/1/rancher-compose.yml",
      { raw := "sections", asStringMap := none, asComposeMap := some rcC9 }) ] }

/-- Claim C9 (counterexample): in a mapping where exactly one section
(.catalog) carries a questions list, the adopted question set can still be
the empty one: the loop assigns Questions on every iteration of the Go
map range, so whichever section is iterated last wins, and the map's
iteration order is unspecified — here the empty web section comes last
and the result is the empty list, not the .catalog list. -/
theorem c9_counterexample_unique_questions_section_not_adopted :
    rcC9.filter (fun kv => !kv.2.questions.isEmpty)
        = [(".catalog", ⟨[qC9]⟩)] ∧
      (readTemplateVersion fsC9 [] "t/1").map (fun t => t.questions)
        = some [] := by
  exact ⟨rfl, rfl⟩

/-- Claim C9 (amended): the version's question set is the questions list
of whichever section the Go map iteration visits last (the mapping itself
already holds the last-parsed value for duplicate section names); in
particular a mapping with exactly one section yields that section's
list. -/
theorem c9_amended_last_iterated_section_wins (fs : FS) (catalog : Catalog)
    (p : String) (es1 es2 : List FSEntry) (e : FSEntry) (fd : FileData)
    (rc : List (String × RancherCompose)) (kv : String × RancherCompose)
    (hroot : readDirFS fs (catalogRoot ++ p) = some (es1 ++ e :: es2))
    (hcr : composeReadable fs p (es1 ++ e :: es2))
    (hc : hasPfx "config.yml" e.name = false)
    (hi : hasPfx "catalogIcon" e.name = false)
    (hd : hasPfx "docker-compose" e.name = false)
    (hr : hasPfx "rancher-compose" e.name = true)
    (hf : readFileFS fs (versionFilePath p e.name) = some fd)
    (hm : fd.asComposeMap = some rc)
    (hlast : rc.getLast? = some kv)
    (hafter : ∀ e2 ∈ es2, hasPfx "rancher-compose" e2.name = false) :
    ∃ t, readTemplateVersion fs catalog p = some t ∧
      t.questions = kv.2.questions := by
  obtain ⟨⟨t1, fc1, fi1⟩, hfold1, -⟩ := processEntries_inv fs p
    (fun _ => True) es1 ({ emptyTemplate with path := p }, false, false)
    (fun acc0 e0 he0 _ => by
      obtain ⟨a, ha⟩ := processEntry_total fs p acc0 e0
        (fun hor => hcr e0 (List.mem_append_left _ he0) hor)
      exact ⟨a, ha, trivial⟩)
    trivial
  have hstepE : processEntry fs p (t1, fc1, fi1) e
      = some ({ t1 with rancherCompose := fd.raw
                      , questions := rc.foldl (fun _ kv2 => kv2.2.questions) t1.questions }
             , fc1, fi1) :=
    processEntry_rancher fs p t1 fc1 fi1 e fd rc hc hi hd hr hf hm
  have hqE : ({ t1 with rancherCompose := fd.raw
                      , questions := rc.foldl (fun _ kv2 => kv2.2.questions) t1.questions }
             : Template).questions = kv.2.questions :=
    foldl_questions_getLast rc kv t1.questions hlast
  obtain ⟨⟨tF, fcF, fiF⟩, hfold2, hPF⟩ := processEntries_inv fs p
    (fun acc => acc.1.questions = kv.2.questions) es2
    ({ t1 with rancherCompose := fd.raw
             , questions := rc.foldl (fun _ kv2 => kv2.2.questions) t1.questions }
    , fc1, fi1)
    (fun acc0 e2 he2 hP0 => by
      obtain ⟨t0, fc0, fi0⟩ := acc0
      obtain ⟨acc1, ha⟩ := processEntry_total fs p (t0, fc0, fi0) e2
        (fun hor => hcr e2
          (List.mem_append_right _ (List.mem_cons_of_mem e he2)) hor)
      have hpres := processEntry_preserves fs p t0 fc0 fi0 e2 acc1 ha
      refine ⟨acc1, ha, ?_⟩
      show acc1.1.questions = kv.2.questions
      rw [hpres.2.2.2.2.2 (hafter e2 he2)]
      exact hP0)
    hqE
  have hfold : processEntries fs p (es1 ++ e :: es2)
      ({ emptyTemplate with path := p }, false, false) = some (tF, fcF, fiF) := by
    rw [processEntries_append fs p es1 (e :: es2) _, hfold1]
    show processEntries fs p (e :: es2) (t1, fc1, fi1) = some (tF, fcF, fiF)
    rw [processEntries, hstepE]
    exact hfold2
  refine ⟨applyInheritance catalog p tF fcF fiF,
    by simp [readTemplateVersion, hroot, hfold], ?_⟩
  rw [applyInheritance_questions]
  exact hPF

/-- The C9 witness scenario: a rancher-compose file whose mapping holds
exactly one section. -/
def fsC9w : FS :=
  { dirs := [ ("./DATA/templates/t/1", [⟨"rancher-compose.yml", false⟩]) ]
  , files := [ ("./DATA/templates/t/1/rancher-compose.yml",
      { raw := "sections", asStringMap := none
      , asComposeMap := some [(".catalog", ⟨[qC9]⟩)] }) ] }

/-- Claim C9 witness: with exactly one section in the mapping, its
questions list is adopted. -/
theorem c9_witness :
    ∃ t, readTemplateVersion fsC9w [] "t/1" = some t ∧
      t.questions = [qC9] :=
  c9_amended_last_iterated_section_wins fsC9w [] "t/1" [] []
    ⟨"rancher-compose.yml", false⟩
    { raw := "sections", asStringMap := none
    , asComposeMap := some [(".catalog", ⟨[qC9]⟩)] }
    [(".catalog", ⟨[qC9]⟩)] (".catalog", ⟨[qC9]⟩)
    (by decide) (by decide) (by decide) (by decide) (by decide) (by decide)
    (by decide) (by decide) (by decide) (by decide)
